import Mathlib

/-!
Verification of the qry514 purchasing-metrics pipeline.

The repository consists of two Python scripts, `purchasing-metrics.py`
("metrics" variant) and `purchasing-metrics-mb.py` ("mb" variant), which
load purchase-order spreadsheets into pandas dataframes, normalize column
names and types, reconcile delivery-date columns, export the unified table,
and (in the metrics variant) filter the latest source file for past-due
orders.

This file gives a shallow embedding of both scripts.  A dataframe is a
list of column names together with a list of rows (lists of cells); a cell
is either missing (`na`, pandas `NaN`/`NA`/`NaT`), a string, an integer or
a parsed date (encoded as a day number).  Fallible pandas operations
(column access of a missing column raises `KeyError`, strict
`pd.to_datetime` raises on unparseable input, `pd.concat` raises on an
empty list) are modelled with `Except String`.
-/

/-- One dataframe cell: missing, text, numeric, or a parsed datetime
(encoded as a day count, see `daysFromCivil`). -/
inductive Cell where
  | na : Cell
  | str : String → Cell
  | int : Int → Cell
  | date : Nat → Cell
deriving DecidableEq, Repr

/-- A pandas dataframe: named columns and rows of cells.  Row `r`'s value
for the `k`-th column is `r.getD k Cell.na`. -/
structure DataFrame where
  cols : List String
  rows : List (List Cell)
deriving DecidableEq, Repr

/-- All rows have exactly one cell per column. -/
def DataFrame.wf (df : DataFrame) : Prop :=
  ∀ r ∈ df.rows, r.length = df.cols.length

instance (df : DataFrame) : Decidable df.wf := by
  unfold DataFrame.wf
  infer_instance

/-- The cell of column `c` in row `i` (missing when out of range),
i.e. `df[c][i]`. -/
def cellAt (df : DataFrame) (c : String) (i : Nat) : Cell :=
  match df.cols.indexOf? c with
  | some k => (df.rows.getD i []).getD k Cell.na
  | none => Cell.na

/-- The cell of column `c` in a given row of `df` (used for rows obtained
by iterating over `df.rows`). -/
def colValue (df : DataFrame) (c : String) (r : List Cell) : Cell :=
  match df.cols.indexOf? c with
  | some k => r.getD k Cell.na
  | none => Cell.na

/-- `df[c] = df[c].map f` when column `c` exists; identity otherwise.
(The guarded uses below only reach the `some` branch.) -/
def applyColTotal (df : DataFrame) (c : String) (f : Cell → Cell) : DataFrame :=
  match df.cols.indexOf? c with
  | some k => { df with rows := df.rows.map (fun r => r.set k (f (r.getD k Cell.na))) }
  | none => df

/-- `df[c] = df[c].map f`; accessing a missing column raises `KeyError`. -/
def mapCol (df : DataFrame) (c : String) (f : Cell → Cell) : Except String DataFrame :=
  match df.cols.indexOf? c with
  | some _ => Except.ok (applyColTotal df c f)
  | none => Except.error ("KeyError: " ++ c)

/-- Apply a fallible elementwise conversion to position `k` of every row,
failing on the first cell the conversion rejects. -/
def convertRows (f : Cell → Except String Cell) (k : Nat) :
    List (List Cell) → Except String (List (List Cell))
  | [] => Except.ok []
  | r :: rs => do
      let v ← f (r.getD k Cell.na)
      let rest ← convertRows f k rs
      Except.ok (r.set k v :: rest)

/-- `df[c] = f(df[c])` for a fallible elementwise `f` (strict
`pd.to_datetime`); a missing column raises `KeyError`. -/
def mapColM (df : DataFrame) (c : String) (f : Cell → Except String Cell) :
    Except String DataFrame :=
  match df.cols.indexOf? c with
  | some k => do
      let rows ← convertRows f k df.rows
      Except.ok { df with rows := rows }
  | none => Except.error ("KeyError: " ++ c)

/-- `df[c] = df[c].fillna(df[src])`: row-wise imputation of column `c`
from column `src`; missing columns raise `KeyError`. -/
def fillnaFrom (df : DataFrame) (c src : String) : Except String DataFrame :=
  match df.cols.indexOf? c with
  | some k =>
    match df.cols.indexOf? src with
    | some j => Except.ok { df with rows := df.rows.map (fun r =>
        if r.getD k Cell.na = Cell.na then r.set k (r.getD j Cell.na) else r) }
    | none => Except.error ("KeyError: " ++ src)
  | none => Except.error ("KeyError: " ++ c)

/-- `df[c] = v`: overwrite an existing column with a constant, or append a
new one (pandas column assignment). -/
def setConst (df : DataFrame) (c : String) (v : Cell) : DataFrame :=
  match df.cols.indexOf? c with
  | some k => { df with rows := df.rows.map (fun r => r.set k v) }
  | none => { cols := df.cols ++ [c], rows := df.rows.map (fun r => r ++ [v]) }

/-- Column index lookup that raises `KeyError` like pandas column access. -/
def colIdx (df : DataFrame) (c : String) : Except String Nat :=
  match df.cols.indexOf? c with
  | some k => Except.ok k
  | none => Except.error ("KeyError: " ++ c)

/-- Positions of the named columns in `df.cols`; a missing column raises
`KeyError`. -/
def colIdxs (df : DataFrame) : List String → Except String (List Nat)
  | [] => Except.ok []
  | c :: cs => do
      let k ← colIdx df c
      let ks ← colIdxs df cs
      Except.ok (k :: ks)

/-- `df[[c1, ..., cn]]`: column projection; a missing column raises
`KeyError`. -/
def projectCols (df : DataFrame) (cs : List String) : Except String DataFrame := do
  let idxs ← colIdxs df cs
  Except.ok { cols := cs, rows := df.rows.map (fun r => idxs.map (fun k => r.getD k Cell.na)) }

/-- Union of column names in order of first appearance, as
`pd.concat` aligns schemas. -/
def unionCols (acc : List String) (cs : List String) : List String :=
  cs.foldl (fun a c => if a.contains c then a else a ++ [c]) acc

/-- Rearrange a row from schema `rcols` into schema `cols`, filling
missing columns with `NaN`. -/
def reindexRow (cols : List String) (rcols : List String) (r : List Cell) : List Cell :=
  cols.map (fun c =>
    match rcols.indexOf? c with
    | some k => r.getD k Cell.na
    | none => Cell.na)

/-- `pd.concat(dfs, ignore_index=True)`: aligns columns by name and stacks
rows; an empty list raises `ValueError: No objects to concatenate`. -/
def concatDFs (dfs : List DataFrame) : Except String DataFrame :=
  match dfs with
  | [] => Except.error "No objects to concatenate"
  | _ =>
    let cols := dfs.foldl (fun a d => unionCols a d.cols) []
    Except.ok { cols := cols,
                rows := dfs.foldl (fun a d => a ++ d.rows.map (reindexRow cols d.cols)) [] }

/-- Python `str.lower()` on a column name (the names here are ASCII). -/
def lowerName (s : String) : String :=
  String.mk (s.data.map Char.toLower)

/-- Pandas `.str.replace(" ", "_")` on a column name. -/
def underscoreName (s : String) : String :=
  String.mk (s.data.map (fun c => if c = ' ' then '_' else c))

/-- `df.columns.str.lower().str.replace(" ", "_")`. -/
def normalizeCols (df : DataFrame) : DataFrame :=
  { df with cols := df.cols.map (fun c => underscoreName (lowerName c)) }

/-- `df.rename(columns={"orderedquantity": "ordered_quantity"})`. -/
def renameOrdered (df : DataFrame) : DataFrame :=
  { df with cols := df.cols.map (fun c =>
      if c = "orderedquantity" then "ordered_quantity" else c) }

/-- The combined per-name effect of the two renaming steps: lowercase,
spaces to underscores, then the `orderedquantity` synonym fix. -/
def canonName (s : String) : String :=
  if underscoreName (lowerName s) = "orderedquantity" then "ordered_quantity"
  else underscoreName (lowerName s)

/-- Does the first list start with the second? -/
def startsWithList : List Char → List Char → Bool
  | _, [] => true
  | [], _ :: _ => false
  | a :: as, b :: bs => a == b && startsWithList as bs

/-- Does `needle` occur as a contiguous sublist of `hay`? -/
def containsList (hay needle : List Char) : Bool :=
  match hay with
  | [] => needle.isEmpty
  | _ :: t => startsWithList hay needle || containsList t needle

/-- Python's `needle in hay` substring test. -/
def containsSub (hay needle : String) : Bool :=
  containsList hay.data needle.data

/-- Python `str.zfill(n)`: left-pad with `'0'` up to width `n`
(strings already at least `n` long are unchanged). -/
def zfill (n : Nat) (s : String) : String :=
  String.mk (List.replicate (n - s.length) '0' ++ s.data)

/-- Day number of a proleptic-Gregorian calendar date (era-based civil
day-count formula); strictly monotone in (y, m, d), so date order and
whole-day differences are faithful. -/
def daysFromCivil (y m d : Nat) : Nat :=
  let y' := if m ≤ 2 then y - 1 else y
  let era := y' / 400
  let yoe := y' % 400
  let mp := (m + 9) % 12
  let doy := (153 * mp + 2) / 5 + d - 1
  let doe := yoe * 365 + yoe / 4 - yoe / 100 + doy
  era * 146097 + doe

/-- Split a character list on a separator character; always returns at
least one (possibly empty) part. -/
def splitOnChar (sep : Char) : List Char → List (List Char)
  | [] => [[]]
  | c :: rest =>
    if c = sep then [] :: splitOnChar sep rest
    else
      match splitOnChar sep rest with
      | [] => [[c]]
      | h :: t => (c :: h) :: t

/-- Read a non-empty all-digit character list as a number. -/
def digitsToNatAux : List Char → Nat → Option Nat
  | [], acc => some acc
  | c :: cs, acc =>
    if c.isDigit then digitsToNatAux cs (acc * 10 + (c.toNat - 48)) else none

/-- Read a non-empty all-digit character list as a number. -/
def digitsToNat (l : List Char) : Option Nat :=
  match l with
  | [] => none
  | _ => digitsToNatAux l 0

/-- Model of the external date parser applied to a text cell: accepts
`"Y-M-D"` with numeric fields and a plausible month/day, anything else is
unparseable.  The spec treats parser internals as an opaque library; what
matters is that real dates parse and junk such as `"--0"` does not. -/
def parseDateString (s : String) : Option Nat :=
  match splitOnChar '-' s.data with
  | [ys, ms, ds] =>
    match digitsToNat ys, digitsToNat ms, digitsToNat ds with
    | some y, some m, some d =>
      if 1 ≤ m ∧ m ≤ 12 ∧ 1 ≤ d ∧ d ≤ 31 then some (daysFromCivil y m d) else none
    | _, _, _ => none
  | _ => none

/-- `pd.to_datetime(x, errors="coerce")` on one cell: missing stays
missing, text parses or coerces to missing, a numeric is interpreted as a
time offset, an already-parsed date is unchanged. -/
def toDatetimeCoerce : Cell → Cell
  | Cell.na => Cell.na
  | Cell.str s =>
    match parseDateString s with
    | some d => Cell.date d
    | none => Cell.na
  | Cell.int n => Cell.date n.toNat
  | Cell.date d => Cell.date d

/-- `pd.to_datetime(x)` with the default `errors="raise"`: unparseable
text raises; missing input stays missing (`NaT`) without raising. -/
def toDatetimeStrict : Cell → Except String Cell
  | Cell.na => Except.ok Cell.na
  | Cell.str s =>
    match parseDateString s with
    | some d => Except.ok (Cell.date d)
    | none => Except.error ("ParserError: " ++ s)
  | Cell.int n => Except.ok (Cell.date n.toNat)
  | Cell.date d => Except.ok (Cell.date d)

/-- `.replace("--0", pd.NA)` on one cell. -/
def replaceSentinel : Cell → Cell
  | Cell.str s => if s = "--0" then Cell.na else Cell.str s
  | c => c

/-- `.astype("string")` on one cell: pandas string dtype keeps missing
values missing and renders non-text values as text. -/
def astypeString : Cell → Cell
  | Cell.na => Cell.na
  | Cell.str s => Cell.str s
  | Cell.int n => Cell.str (toString n)
  | Cell.date d => Cell.str (toString d)

/-- Python `str(x)` as pandas `.astype(str)` applies it: a missing value
becomes the literal text "nan". -/
def pyStr : Cell → String
  | Cell.na => "nan"
  | Cell.str s => s
  | Cell.int n => toString n
  | Cell.date d => toString d

/-- Reading a column with `dtype=str`: populated cells arrive as text,
empty cells still arrive as `NaN`. -/
def dtypeStr : Cell → Cell
  | Cell.na => Cell.na
  | Cell.str s => Cell.str s
  | Cell.int n => Cell.str (toString n)
  | Cell.date d => Cell.str (toString d)

/-- A `for col in columns: df[col] = f(df[col])` loop over named columns
(each access raises `KeyError` when the column is missing). -/
def applyColsM (f : Cell → Cell) (df : DataFrame) : List String → Except String DataFrame
  | [] => Except.ok df
  | c :: cs => do
      let df' ← mapCol df c f
      applyColsM f df' cs

/-- `process_dates` (purchasing-metrics.py lines 39-61) and the identical
inline date block of purchasing-metrics-mb.py (lines 46-60): discover the
columns whose name contains "date", replace the `"--0"` sentinel in
`conf_dely_date` with `NA`, parse every date column leniently, then impute
`conf_dely_date` from `po_requested_delivery_date`. -/
def process_dates (df : DataFrame) : Except String DataFrame := do
  let dateColumns := df.cols.filter (fun c => containsSub c "date")
  let df ← mapCol df "conf_dely_date" replaceSentinel
  let df ← applyColsM toDatetimeCoerce df dateColumns
  fillnaFrom df "conf_dely_date" "po_requested_delivery_date"

/-- The fixed list of text columns shared by both scripts. -/
def text_columns : List String :=
  ["supplier", "supplier_name", "item_number", "item_type", "po_number",
   "buyer", "source_file"]

/-- `process_text_columns` (purchasing-metrics.py lines 64-78): coerce each
listed column to pandas string dtype, guarded by `if col in df.columns`. -/
def process_text_columns (df : DataFrame) : DataFrame :=
  text_columns.foldl (fun acc c =>
    if acc.cols.contains c then applyColTotal acc c astypeString else acc) df

/-- The module-level text-coercion loop of purchasing-metrics-mb.py
(lines 78-79): same list, but no presence guard, so a missing listed
column raises `KeyError`. -/
def text_columns_mb (df : DataFrame) : Except String DataFrame :=
  applyColsM astypeString df text_columns

/-- The normalizer of the metrics variant as one stage: column-name
canonicalization (purchasing-metrics.py lines 127-130) followed by the
text coercion of `process_text_columns`. -/
def normalize_stage (df : DataFrame) : DataFrame :=
  process_text_columns (renameOrdered (normalizeCols df))

/-- One source spreadsheet: file name, modification time, and the raw
table of worksheet "Sheet2" as `pd.read_excel` (no dtype overrides)
returns it. -/
structure RawFile where
  name : String
  mtime : Nat
  table : DataFrame
deriving DecidableEq, Repr

/-- `read_excel_file` (purchasing-metrics.py lines 28-36): read Sheet2
as-is and tag rows with the file's name.  No dtype overrides and no
supplier padding in this variant. -/
def read_excel_file (f : RawFile) : DataFrame :=
  setConst f.table "source_file" (Cell.str f.name)

/-- The per-file read of purchasing-metrics-mb.py (lines 16-34): always
read `Supplier` and `Item Number` with `dtype=str`; for a file whose name
contains "qry514-fac400" additionally `astype(str).str.zfill(5)` the
supplier and `astype(str)` the item number; finally tag the rows with the
file's name. -/
def mb_read_file (f : RawFile) : DataFrame :=
  let df := applyColTotal (applyColTotal f.table "Supplier" dtypeStr) "Item Number" dtypeStr
  let df :=
    if containsSub f.name "qry514-fac400" then
      let df := applyColTotal df "Supplier" (fun c => Cell.str (zfill 5 (pyStr c)))
      applyColTotal df "Item Number" (fun c => Cell.str (pyStr c))
    else df
  setConst df "Source_File" (Cell.str f.name)

/-- The three exports both scripts perform on success. -/
inductive ExportEvent where
  | excel : String → ExportEvent
  | parquet : String → ExportEvent
  | csv : String → ExportEvent
deriving DecidableEq, Repr

/-- `combine_excel_files` (purchasing-metrics.py lines 108-142): read all
files, fail with `No valid Excel files found` when none produced a table,
else concatenate, normalize names, reconcile dates, coerce text columns,
and export.  The returned event list records the exports that a
successful run performs (a failed run performs none). -/
def combine_excel_files (files : List RawFile) :
    Except String (DataFrame × List ExportEvent) := do
  let all_dataframes := files.map read_excel_file
  if all_dataframes.isEmpty then
    Except.error "No valid Excel files found"
  else do
    let combined ← concatDFs all_dataframes
    let combined := renameOrdered (normalizeCols combined)
    let combined ← process_dates combined
    let combined := process_text_columns combined
    Except.ok (combined,
      [ExportEvent.excel "combined_data", ExportEvent.parquet "combined_data",
       ExportEvent.csv "combined_data"])

/-- The whole module-level run of purchasing-metrics-mb.py: its
`combine_excel_files` (which ends with the date block) followed by the
unguarded text-coercion loop and the three exports. -/
def mb_run (files : List RawFile) :
    Except String (DataFrame × List ExportEvent) := do
  let all_dataframes := files.map mb_read_file
  let combined ← concatDFs all_dataframes
  let combined := renameOrdered (normalizeCols combined)
  let combined ← process_dates combined
  let combined ← text_columns_mb combined
  Except.ok (combined,
    [ExportEvent.excel "combined_data", ExportEvent.parquet "combined_data",
     ExportEvent.csv "combined_data"])

/-- `sorted(files, key=mtime, reverse=True)[0]`: the first file (in
listing order) with maximal modification time — Python's sort is stable —
or an `IndexError` when the directory holds no spreadsheet files. -/
def latestFile (files : List RawFile) : Except String RawFile :=
  match files.foldl (fun acc f =>
    match acc with
    | none => some f
    | some g => if g.mtime < f.mtime then some f else some g) none with
  | some f => Except.ok f
  | none => Except.error "IndexError: list index out of range"

/-- The six projected columns of the past-due report. -/
def pastDueCols : List String :=
  ["po_number", "planning_date", "po_line_low_sts", "buyer", "item_number",
   "source_file"]

/-- The monitored status codes. -/
def statusSet : List Int := [20, 35, 40, 50]

/-- `series.isin([20, 35, 40, 50])` on one cell: numeric equality with a
member of the set; missing or non-numeric cells never match. -/
def cellIsIn (c : Cell) (s : List Int) : Bool :=
  match c with
  | Cell.int n => s.contains n
  | _ => false

/-- `planning_date < current_date` on one cell: a missing (`NaT`) or
non-date value compares false. -/
def cellBeforeToday (c : Cell) (today : Nat) : Bool :=
  match c with
  | Cell.date d => decide (d < today)
  | _ => false

/-- The row filter of `get_past_due_orders`, with `kp`/`ks` the positions
of `planning_date` and `po_line_low_sts`. -/
def pastDuePred (today kp ks : Nat) (r : List Cell) : Bool :=
  cellBeforeToday (r.getD kp Cell.na) today && cellIsIn (r.getD ks Cell.na) statusSet

/-- `(current_date - planning_date).dt.days` on one cell. -/
def daysPastDueCell (today : Nat) (c : Cell) : Cell :=
  match c with
  | Cell.date d => Cell.int ((today : Int) - (d : Int))
  | _ => Cell.na

/-- The `days_past_due` sort key of a report row (`kd` is the position of
that column). -/
def daysKey (kd : Nat) (r : List Cell) : Int :=
  match r.getD kd Cell.na with
  | Cell.int n => n
  | _ => 0

/-- Insert a row into a list sorted by descending `days_past_due`. -/
def insertRowDesc (kd : Nat) (r : List Cell) : List (List Cell) → List (List Cell)
  | [] => [r]
  | x :: xs => if daysKey kd x ≤ daysKey kd r then r :: x :: xs else x :: insertRowDesc kd r xs

/-- `sort_values("days_past_due", ascending=False)`: sort rows by
descending `days_past_due`. -/
def sortRowsDesc (kd : Nat) : List (List Cell) → List (List Cell)
  | [] => []
  | r :: rs => insertRowDesc kd r (sortRowsDesc kd rs)

/-- `get_past_due_orders` (purchasing-metrics.py lines 145-205): ignore
the dataframe argument, re-read the most recently modified source file,
lowercase/underscore its column names, tag it, parse `planning_date`
strictly, keep rows strictly before today whose status is in
`statusSet`, project six columns, derive `days_past_due`, sort
descending, and export the report. -/
def get_past_due_orders (df : DataFrame) (files : List RawFile) (today : Nat) :
    Except String (DataFrame × List ExportEvent) := do
  let latest ← latestFile files
  let latest_df := { latest.table with
    cols := latest.table.cols.map (fun c => underscoreName (lowerName c)) }
  let latest_df := setConst latest_df "source_file" (Cell.str latest.name)
  let latest_df ← mapColM latest_df "planning_date" toDatetimeStrict
  let kp ← colIdx latest_df "planning_date"
  let ks ← colIdx latest_df "po_line_low_sts"
  let kept := { latest_df with rows := latest_df.rows.filter (pastDuePred today kp ks) }
  let past_due ← projectCols kept pastDueCols
  let kq ← colIdx past_due "planning_date"
  let past_due : DataFrame := { cols := past_due.cols ++ ["days_past_due"],
                                rows := past_due.rows.map (fun r =>
                                  r ++ [daysPastDueCell today (r.getD kq Cell.na)]) }
  let kd ← colIdx past_due "days_past_due"
  let past_due := { past_due with rows := sortRowsDesc kd past_due.rows }
  Except.ok (past_due, [ExportEvent.csv "past_due_orders"])

/-! ### Column-lookup lemmas -/

theorem idx_lt_length {l : List String} {c : String} {k : Nat}
    (h : l.indexOf? c = some k) : k < l.length := by
  rw [List.indexOf?, List.findIdx?_eq_some_iff_getElem] at h
  exact h.1

theorem idx_name {l : List String} {c : String} {k : Nat}
    (h : l.indexOf? c = some k) : l[k]? = some c := by
  rw [List.indexOf?, List.findIdx?_eq_some_iff_getElem] at h
  obtain ⟨hk, hp, -⟩ := h
  have : l[k] = c := by simpa using hp
  simp [List.getElem?_eq_getElem hk, this]

theorem idx_mem {l : List String} {c : String} {k : Nat}
    (h : l.indexOf? c = some k) : c ∈ l := by
  exact List.getElem?_mem (idx_name h)

theorem mem_idx {l : List String} {c : String} (h : c ∈ l) :
    ∃ k, l.indexOf? c = some k := by
  rw [List.indexOf?]
  have : ∃ x, x ∈ l ∧ (x == c) = true := ⟨c, h, by simp⟩
  exact ⟨_, List.findIdx?_eq_some_of_exists this⟩

theorem idx_inj {l : List String} {c c' : String} {k k' : Nat}
    (h : l.indexOf? c = some k) (h' : l.indexOf? c' = some k') (hne : c ≠ c') :
    k ≠ k' := by
  intro hkk
  subst hkk
  have h1 := idx_name h
  have h2 := idx_name h'
  rw [h1] at h2
  exact hne (Option.some.injEq .. ▸ h2)

/-! ### Row-level characterization of column-at-a-time updates -/

/-- The effect of one `df[c] = df[c].map f` assignment on a single row. -/
def stepRow (cols : List String) (f : Cell → Cell) (r : List Cell) (c : String) : List Cell :=
  match cols.indexOf? c with
  | some k => r.set k (f (r.getD k Cell.na))
  | none => r

theorem applyColTotal_cols (df : DataFrame) (c : String) (f : Cell → Cell) :
    (applyColTotal df c f).cols = df.cols := by
  unfold applyColTotal
  cases h : df.cols.indexOf? c <;> rfl

theorem applyColTotal_rows (df : DataFrame) (c : String) (f : Cell → Cell) :
    (applyColTotal df c f).rows = df.rows.map (fun r => stepRow df.cols f r c) := by
  unfold applyColTotal stepRow
  cases h : df.cols.indexOf? c <;> simp

theorem foldl_applyCols_cols (names : List String) (f : Cell → Cell) (df : DataFrame) :
    (names.foldl (fun a c => applyColTotal a c f) df).cols = df.cols := by
  induction names generalizing df with
  | nil => rfl
  | cons c cs ih => rw [List.foldl_cons, ih, applyColTotal_cols]

theorem foldl_applyCols_rows (names : List String) (f : Cell → Cell) (df : DataFrame) :
    (names.foldl (fun a c => applyColTotal a c f) df).rows =
      df.rows.map (fun r => names.foldl (stepRow df.cols f) r) := by
  induction names generalizing df with
  | nil => simp
  | cons c cs ih =>
    rw [List.foldl_cons, ih, applyColTotal_rows, applyColTotal_cols, List.map_map]
    simp [Function.comp, List.foldl_cons]

theorem stepRow_length (cols : List String) (f : Cell → Cell) (r : List Cell) (c : String) :
    (stepRow cols f r c).length = r.length := by
  unfold stepRow
  cases h : cols.indexOf? c <;> simp

theorem stepRow_getElem (cols : List String) (f : Cell → Cell) (r : List Cell)
    (c : String) (n : Nat) :
    (stepRow cols f r c)[n]? =
      if cols.indexOf? c = some n then (r[n]?).map f else r[n]? := by
  cases h : cols.indexOf? c with
  | none => simp [stepRow, h]
  | some k =>
    simp only [stepRow, h]
    by_cases hk : k = n
    · subst hk
      rw [if_pos rfl]
      by_cases hlen : k < r.length
      · rw [List.getElem?_set_self hlen, List.getD_eq_getElem?_getD,
            List.getElem?_eq_getElem hlen]
        simp
      · have hle : r.length ≤ k := Nat.le_of_not_lt hlen
        rw [List.set_eq_of_length_le hle, List.getElem?_eq_none hle]
        simp
    · rw [if_neg (by simp [hk]), List.getElem?_set_ne hk]

theorem foldl_stepRow_length (names : List String) (cols : List String)
    (f : Cell → Cell) (r : List Cell) :
    (names.foldl (stepRow cols f) r).length = r.length := by
  induction names generalizing r with
  | nil => rfl
  | cons c cs ih => rw [List.foldl_cons, ih, stepRow_length]

theorem foldl_stepRow_getElem {f : Cell → Cell} (hf : ∀ x, f (f x) = f x)
    (names : List String) (cols : List String) (r : List Cell) (n : Nat) :
    (names.foldl (stepRow cols f) r)[n]? =
      if names.any (fun c => decide (cols.indexOf? c = some n)) then
        (r[n]?).map f
      else r[n]? := by
  induction names generalizing r with
  | nil => simp
  | cons c cs ih =>
    rw [List.foldl_cons, ih, stepRow_getElem]
    by_cases hc : cols.indexOf? c = some n
    · have hany : (c :: cs).any (fun c => decide (cols.indexOf? c = some n)) = true := by
        simp [hc]
      rw [hany, if_pos hc]
      by_cases hcs : cs.any (fun c => decide (cols.indexOf? c = some n)) = true
      · rw [if_pos hcs]
        cases h : r[n]? <;> simp [hf]
      · rw [if_neg hcs]
        simp
    · rw [if_neg hc]
      have : (c :: cs).any (fun c => decide (cols.indexOf? c = some n)) =
          cs.any (fun c => decide (cols.indexOf? c = some n)) := by
        simp [hc]
      rw [this]

theorem applyColTotal_rows_length (df : DataFrame) (c : String) (f : Cell → Cell) :
    (applyColTotal df c f).rows.length = df.rows.length := by
  rw [applyColTotal_rows, List.length_map]

theorem wf_applyColTotal {df : DataFrame} (h : df.wf) (c : String) (f : Cell → Cell) :
    (applyColTotal df c f).wf := by
  intro r hr
  rw [applyColTotal_rows] at hr
  obtain ⟨r0, hr0, rfl⟩ := List.mem_map.mp hr
  rw [stepRow_length, applyColTotal_cols]
  exact h r0 hr0

theorem foldl_applyCols_rows_length (names : List String) (f : Cell → Cell) (df : DataFrame) :
    (names.foldl (fun a c => applyColTotal a c f) df).rows.length = df.rows.length := by
  rw [foldl_applyCols_rows, List.length_map]

theorem wf_foldl_applyCols {df : DataFrame} (h : df.wf) (names : List String)
    (f : Cell → Cell) : (names.foldl (fun a c => applyColTotal a c f) df).wf := by
  intro r hr
  rw [foldl_applyCols_rows] at hr
  obtain ⟨r0, hr0, rfl⟩ := List.mem_map.mp hr
  rw [foldl_stepRow_length, foldl_applyCols_cols]
  exact h r0 hr0

theorem rowAt_map {g : List Cell → List Cell} {rows : List (List Cell)} {i : Nat}
    (hi : i < rows.length) :
    (rows.map g).getD i [] = g (rows.getD i []) := by
  have hi' : i < (rows.map g).length := by simpa using hi
  rw [List.getD_eq_getElem?_getD, List.getElem?_eq_getElem hi', List.getElem_map,
      List.getD_eq_getElem?_getD, List.getElem?_eq_getElem hi]
  rfl

theorem getD_foldl_stepRow {f : Cell → Cell} (hf : ∀ x, f (f x) = f x)
    (hna : f Cell.na = Cell.na) {names : List String} {cols : List String} {k : Nat}
    (hany : names.any (fun c' => decide (cols.indexOf? c' = some k)) = true)
    (r : List Cell) :
    (names.foldl (stepRow cols f) r).getD k Cell.na = f (r.getD k Cell.na) := by
  rw [List.getD_eq_getElem?_getD, foldl_stepRow_getElem hf names cols r k, hany,
      List.getD_eq_getElem?_getD]
  cases r[k]? <;> simp [hna]

theorem getD_foldl_stepRow_skip {f : Cell → Cell} (hf : ∀ x, f (f x) = f x)
    {names : List String} {cols : List String} {k : Nat}
    (hany : names.any (fun c' => decide (cols.indexOf? c' = some k)) = false)
    (r : List Cell) :
    (names.foldl (stepRow cols f) r).getD k Cell.na = r.getD k Cell.na := by
  rw [List.getD_eq_getElem?_getD, foldl_stepRow_getElem hf names cols r k, hany,
      List.getD_eq_getElem?_getD]
  simp

theorem cellAt_foldl_mem {f : Cell → Cell} (hf : ∀ x, f (f x) = f x)
    (hna : f Cell.na = Cell.na) {names : List String} {df : DataFrame} {c : String}
    {k : Nat} (h : df.cols.indexOf? c = some k) (hmem : c ∈ names) (i : Nat)
    (hi : i < df.rows.length) :
    cellAt (names.foldl (fun a c' => applyColTotal a c' f) df) c i = f (cellAt df c i) := by
  have hany : names.any (fun c' => decide (df.cols.indexOf? c' = some k)) = true := by
    rw [List.any_eq_true]
    exact ⟨c, hmem, by simp [h]⟩
  simp only [cellAt, foldl_applyCols_cols, h, foldl_applyCols_rows]
  rw [rowAt_map hi, getD_foldl_stepRow hf hna hany]

theorem cellAt_foldl_not_mem {f : Cell → Cell} (hf : ∀ x, f (f x) = f x)
    {names : List String} {df : DataFrame} {c : String} (hnm : c ∉ names) (i : Nat)
    (hi : i < df.rows.length) :
    cellAt (names.foldl (fun a c' => applyColTotal a c' f) df) c i = cellAt df c i := by
  cases h : df.cols.indexOf? c with
  | none => simp only [cellAt, foldl_applyCols_cols, h]
  | some k =>
    have hany : names.any (fun c' => decide (df.cols.indexOf? c' = some k)) = false := by
      rw [List.any_eq_false]
      intro c' hc'
      simp only [decide_eq_true_eq]
      intro hidx
      have h1 := idx_name hidx
      have h2 := idx_name h
      rw [h1] at h2
      exact hnm ((Option.some.inj h2) ▸ hc')
    simp only [cellAt, foldl_applyCols_cols, h, foldl_applyCols_rows]
    rw [rowAt_map hi, getD_foldl_stepRow_skip hf hany]

theorem cellAt_applyColTotal_mem {f : Cell → Cell} (hf : ∀ x, f (f x) = f x)
    (hna : f Cell.na = Cell.na) {df : DataFrame} {c : String} {k : Nat}
    (h : df.cols.indexOf? c = some k) (i : Nat) (hi : i < df.rows.length) :
    cellAt (applyColTotal df c f) c i = f (cellAt df c i) :=
  cellAt_foldl_mem hf hna h (List.mem_singleton.mpr rfl) i hi

theorem cellAt_applyColTotal_ne {f : Cell → Cell} (hf : ∀ x, f (f x) = f x)
    {df : DataFrame} {c c' : String} (hne : c' ∉ ([c] : List String)) (i : Nat)
    (hi : i < df.rows.length) :
    cellAt (applyColTotal df c f) c' i = cellAt df c' i :=
  cellAt_foldl_not_mem hf hne i hi

/-! ### Facts about the elementwise cell conversions -/

theorem replaceSentinel_idem (x : Cell) : replaceSentinel (replaceSentinel x) = replaceSentinel x := by
  cases x with
  | str s =>
    by_cases h : s = "--0" <;> simp [replaceSentinel, h]
  | na => rfl
  | int n => rfl
  | date d => rfl

theorem replaceSentinel_na : replaceSentinel Cell.na = Cell.na := rfl

theorem toDatetimeCoerce_idem (x : Cell) :
    toDatetimeCoerce (toDatetimeCoerce x) = toDatetimeCoerce x := by
  cases x with
  | str s =>
    cases h : parseDateString s <;> simp [toDatetimeCoerce, h]
  | na => rfl
  | int n => rfl
  | date d => rfl

theorem toDatetimeCoerce_na : toDatetimeCoerce Cell.na = Cell.na := rfl

theorem astypeString_idem (x : Cell) : astypeString (astypeString x) = astypeString x := by
  cases x <;> rfl

theorem astypeString_na : astypeString Cell.na = Cell.na := rfl

/-! ### Success and effect of the fallible column operations -/

theorem mapCol_ok {df : DataFrame} {c : String} {k : Nat} (h : df.cols.indexOf? c = some k)
    (f : Cell → Cell) : mapCol df c f = Except.ok (applyColTotal df c f) := by
  unfold mapCol
  rw [h]

theorem mapCol_err {df : DataFrame} {c : String} (h : df.cols.indexOf? c = none)
    (f : Cell → Cell) : mapCol df c f = Except.error ("KeyError: " ++ c) := by
  unfold mapCol
  rw [h]

theorem applyColsM_ok_of_present {f : Cell → Cell} :
    ∀ (names : List String) (df : DataFrame), (∀ c ∈ names, c ∈ df.cols) →
    applyColsM f df names =
      Except.ok (names.foldl (fun a c => applyColTotal a c f) df)
  | [], df, _ => rfl
  | c :: cs, df, h => by
    obtain ⟨k, hk⟩ := mem_idx (h c (List.mem_cons_self c cs))
    rw [applyColsM, mapCol_ok hk]
    show applyColsM f (applyColTotal df c f) cs = _
    rw [applyColsM_ok_of_present cs (applyColTotal df c f)
      (fun c' hc' => (applyColTotal_cols df c f) ▸ h c' (List.mem_cons_of_mem c hc')),
      List.foldl_cons]

theorem applyColsM_cols {f : Cell → Cell} :
    ∀ {names : List String} {df out : DataFrame},
      applyColsM f df names = Except.ok out → out.cols = df.cols := by
  intro names
  induction names with
  | nil =>
    intro df out h
    cases h
    rfl
  | cons c cs ih =>
    intro df out h
    rw [applyColsM] at h
    cases hk : df.cols.indexOf? c with
    | none => rw [mapCol_err hk] at h; cases h
    | some k =>
      rw [mapCol_ok hk] at h
      have := ih h
      rw [this, applyColTotal_cols]

theorem fillnaFrom_ok {df : DataFrame} {c src : String} {k j : Nat}
    (hc : df.cols.indexOf? c = some k) (hs : df.cols.indexOf? src = some j) :
    fillnaFrom df c src = Except.ok { df with rows := df.rows.map (fun r =>
        if r.getD k Cell.na = Cell.na then r.set k (r.getD j Cell.na) else r) } := by
  unfold fillnaFrom
  rw [hc, hs]

theorem exbind_ok {α β : Type} (a : α) (f : α → Except String β) :
    (Except.ok a >>= f) = f a := rfl

theorem process_dates_eq (df : DataFrame) :
    process_dates df =
      (mapCol df "conf_dely_date" replaceSentinel) >>= (fun d =>
        (applyColsM toDatetimeCoerce d (df.cols.filter (fun c => containsSub c "date"))) >>=
          (fun d' => fillnaFrom d' "conf_dely_date" "po_requested_delivery_date")) := rfl

theorem rowAt_mem {rows : List (List Cell)} {i : Nat} (hi : i < rows.length) :
    rows.getD i [] ∈ rows := by
  rw [List.getD_eq_getElem?_getD, List.getElem?_eq_getElem hi]
  exact List.getElem_mem hi

theorem cellAt_fillna {df : DataFrame} (hwf : df.wf) {c src : String} {k j : Nat}
    (hc : df.cols.indexOf? c = some k) (hs : df.cols.indexOf? src = some j)
    (i : Nat) (hi : i < df.rows.length) :
    cellAt { df with rows := df.rows.map (fun r =>
        if r.getD k Cell.na = Cell.na then r.set k (r.getD j Cell.na) else r) } c i =
      if cellAt df c i = Cell.na then cellAt df src i else cellAt df c i := by
  simp only [cellAt, hc, hs]
  rw [rowAt_map hi]
  have hrlen : df.cols.length ≤ (df.rows.getD i []).length := by
    rw [hwf _ (rowAt_mem hi)]
  by_cases hcase : (df.rows.getD i []).getD k Cell.na = Cell.na
  · rw [if_pos hcase, if_pos hcase]
    have hk : k < (df.rows.getD i []).length :=
      Nat.lt_of_lt_of_le (idx_lt_length hc) hrlen
    rw [List.getD_eq_getElem?_getD, List.getElem?_set_self hk]
    simp
  · rw [if_neg hcase, if_neg hcase]

/-- Row-wise effect and success of `process_dates` when both
`conf_dely_date` and `po_requested_delivery_date` exist: the reconciled
`conf_dely_date` is the lenient parse of the sentinel-cleaned source value,
imputed from the parsed `po_requested_delivery_date` when that parse is
missing. -/
theorem process_dates_spec {df : DataFrame} (hwf : df.wf) {kc kp : Nat}
    (hc : df.cols.indexOf? "conf_dely_date" = some kc)
    (hp : df.cols.indexOf? "po_requested_delivery_date" = some kp) :
    ∃ out : DataFrame, process_dates df = Except.ok out ∧ out.cols = df.cols ∧
      out.rows.length = df.rows.length ∧
      ∀ i, i < df.rows.length →
        cellAt out "conf_dely_date" i =
          (if toDatetimeCoerce (replaceSentinel (cellAt df "conf_dely_date" i)) = Cell.na
           then toDatetimeCoerce (cellAt df "po_requested_delivery_date" i)
           else toDatetimeCoerce (replaceSentinel (cellAt df "conf_dely_date" i))) := by
  have hne : ("po_requested_delivery_date" : String) ≠ "conf_dely_date" := by decide
  have h1 := mapCol_ok hc replaceSentinel
  have hd1cols : (applyColTotal df "conf_dely_date" replaceSentinel).cols = df.cols :=
    applyColTotal_cols df _ _
  have hd1len : (applyColTotal df "conf_dely_date" replaceSentinel).rows.length =
      df.rows.length := applyColTotal_rows_length df _ _
  have hd1wf : (applyColTotal df "conf_dely_date" replaceSentinel).wf :=
    wf_applyColTotal hwf _ _
  have hsub : ∀ c ∈ df.cols.filter (fun c => containsSub c "date"),
      c ∈ (applyColTotal df "conf_dely_date" replaceSentinel).cols := by
    intro c hcm
    rw [hd1cols]
    exact (List.mem_filter.mp hcm).1
  have h2 := applyColsM_ok_of_present (f := toDatetimeCoerce)
    (df.cols.filter (fun c => containsSub c "date"))
    (applyColTotal df "conf_dely_date" replaceSentinel) hsub
  have hd2cols : ((df.cols.filter (fun c => containsSub c "date")).foldl
      (fun a c => applyColTotal a c toDatetimeCoerce)
      (applyColTotal df "conf_dely_date" replaceSentinel)).cols = df.cols := by
    rw [foldl_applyCols_cols, hd1cols]
  have hd2len : ((df.cols.filter (fun c => containsSub c "date")).foldl
      (fun a c => applyColTotal a c toDatetimeCoerce)
      (applyColTotal df "conf_dely_date" replaceSentinel)).rows.length = df.rows.length := by
    rw [foldl_applyCols_rows_length, hd1len]
  have hd2wf : ((df.cols.filter (fun c => containsSub c "date")).foldl
      (fun a c => applyColTotal a c toDatetimeCoerce)
      (applyColTotal df "conf_dely_date" replaceSentinel)).wf :=
    wf_foldl_applyCols hd1wf _ _
  have hc2 : ((df.cols.filter (fun c => containsSub c "date")).foldl
      (fun a c => applyColTotal a c toDatetimeCoerce)
      (applyColTotal df "conf_dely_date" replaceSentinel)).cols.indexOf?
        "conf_dely_date" = some kc := by rw [hd2cols]; exact hc
  have hp2 : ((df.cols.filter (fun c => containsSub c "date")).foldl
      (fun a c => applyColTotal a c toDatetimeCoerce)
      (applyColTotal df "conf_dely_date" replaceSentinel)).cols.indexOf?
        "po_requested_delivery_date" = some kp := by rw [hd2cols]; exact hp
  have h3 := fillnaFrom_ok hc2 hp2
  refine ⟨_, by rw [process_dates_eq, h1, exbind_ok, h2, exbind_ok]; exact h3, ?_, ?_, ?_⟩
  · simpa using hd2cols
  · simpa using hd2len
  · intro i hi
    have hi1 : i < (applyColTotal df "conf_dely_date" replaceSentinel).rows.length := by
      rw [hd1len]; exact hi
    have hi2 : i < ((df.cols.filter (fun c => containsSub c "date")).foldl
        (fun a c => applyColTotal a c toDatetimeCoerce)
        (applyColTotal df "conf_dely_date" replaceSentinel)).rows.length := by
      rw [hd2len]; exact hi
    have hc1 : (applyColTotal df "conf_dely_date" replaceSentinel).cols.indexOf?
        "conf_dely_date" = some kc := by rw [hd1cols]; exact hc
    have hp1 : (applyColTotal df "conf_dely_date" replaceSentinel).cols.indexOf?
        "po_requested_delivery_date" = some kp := by rw [hd1cols]; exact hp
    have e1 : cellAt (applyColTotal df "conf_dely_date" replaceSentinel)
        "conf_dely_date" i = replaceSentinel (cellAt df "conf_dely_date" i) :=
      cellAt_applyColTotal_mem replaceSentinel_idem replaceSentinel_na hc i hi
    have e1p : cellAt (applyColTotal df "conf_dely_date" replaceSentinel)
        "po_requested_delivery_date" i = cellAt df "po_requested_delivery_date" i :=
      cellAt_applyColTotal_ne replaceSentinel_idem (by simp [hne]) i hi
    have hmemconf : "conf_dely_date" ∈ df.cols.filter (fun c => containsSub c "date") :=
      List.mem_filter.mpr ⟨idx_mem hc, by decide⟩
    have hmempo : "po_requested_delivery_date" ∈
        df.cols.filter (fun c => containsSub c "date") :=
      List.mem_filter.mpr ⟨idx_mem hp, by decide⟩
    have e2 : cellAt ((df.cols.filter (fun c => containsSub c "date")).foldl
        (fun a c => applyColTotal a c toDatetimeCoerce)
        (applyColTotal df "conf_dely_date" replaceSentinel)) "conf_dely_date" i =
          toDatetimeCoerce (replaceSentinel (cellAt df "conf_dely_date" i)) := by
      rw [cellAt_foldl_mem toDatetimeCoerce_idem toDatetimeCoerce_na hc1 hmemconf i hi1, e1]
    have e2p : cellAt ((df.cols.filter (fun c => containsSub c "date")).foldl
        (fun a c => applyColTotal a c toDatetimeCoerce)
        (applyColTotal df "conf_dely_date" replaceSentinel))
          "po_requested_delivery_date" i =
          toDatetimeCoerce (cellAt df "po_requested_delivery_date" i) := by
      rw [cellAt_foldl_mem toDatetimeCoerce_idem toDatetimeCoerce_na hp1 hmempo i hi1, e1p]
    rw [cellAt_fillna hd2wf hc2 hp2 i hi2, e2, e2p]

theorem exbind_err {α β : Type} (e : String) (f : α → Except String β) :
    ((Except.error e : Except String α) >>= f) = Except.error e := rfl

/-- Claim C1, counterexample: a row whose source `conf_dely_date` is the
non-null text "garbage" (unparseable) and whose
`po_requested_delivery_date` is null ends with a null `conf_dely_date`
after reconciliation, although not both source fields were null — so
"null iff both source fields were null" is false as stated. -/
theorem process_dates_null_despite_nonnull_source :
    process_dates { cols := ["conf_dely_date", "po_requested_delivery_date"],
                    rows := [[Cell.str "garbage", Cell.na]] } =
      Except.ok { cols := ["conf_dely_date", "po_requested_delivery_date"],
                  rows := [[Cell.na, Cell.na]] } ∧
    cellAt { cols := ["conf_dely_date", "po_requested_delivery_date"],
             rows := [[Cell.str "garbage", Cell.na]] } "conf_dely_date" 0 =
      Cell.str "garbage" ∧
    Cell.str "garbage" ≠ Cell.na := by
  refine ⟨rfl, rfl, by decide⟩

/-- Claim C1, amended: after reconciliation `conf_dely_date` is null iff
both the sentinel-cleaned `conf_dely_date` and `po_requested_delivery_date`
of the source row fail to parse as dates (i.e. each is null, the sentinel,
or unparseable text). -/
theorem process_dates_conf_null_iff_both_unparseable {df : DataFrame} (hwf : df.wf)
    {kc kp : Nat} (hc : df.cols.indexOf? "conf_dely_date" = some kc)
    (hp : df.cols.indexOf? "po_requested_delivery_date" = some kp)
    (i : Nat) (hi : i < df.rows.length) :
    ∃ out : DataFrame, process_dates df = Except.ok out ∧
      (cellAt out "conf_dely_date" i = Cell.na ↔
        (toDatetimeCoerce (replaceSentinel (cellAt df "conf_dely_date" i)) = Cell.na ∧
         toDatetimeCoerce (cellAt df "po_requested_delivery_date" i) = Cell.na)) := by
  obtain ⟨out, hok, -, -, hcell⟩ := process_dates_spec hwf hc hp
  refine ⟨out, hok, ?_⟩
  rw [hcell i hi]
  by_cases hA : toDatetimeCoerce (replaceSentinel (cellAt df "conf_dely_date" i)) = Cell.na
  · rw [if_pos hA]
    constructor
    · intro hB
      exact ⟨hA, hB⟩
    · intro h
      exact h.2
  · rw [if_neg hA]
    constructor
    · intro h
      exact absurd h hA
    · intro h
      exact absurd h.1 hA

/-- Claim C1, witness: the amended statement applied to a concrete
one-row table (sentinel `conf_dely_date`, parseable
`po_requested_delivery_date`). -/
theorem process_dates_conf_null_iff_both_unparseable_witness :
    ∃ out : DataFrame,
      process_dates { cols := ["conf_dely_date", "po_requested_delivery_date"],
                      rows := [[Cell.str "--0", Cell.str "2024-01-05"]] } =
        Except.ok out ∧
      (cellAt out "conf_dely_date" 0 = Cell.na ↔
        (toDatetimeCoerce (replaceSentinel
            (cellAt { cols := ["conf_dely_date", "po_requested_delivery_date"],
                      rows := [[Cell.str "--0", Cell.str "2024-01-05"]] }
              "conf_dely_date" 0)) = Cell.na ∧
         toDatetimeCoerce
            (cellAt { cols := ["conf_dely_date", "po_requested_delivery_date"],
                      rows := [[Cell.str "--0", Cell.str "2024-01-05"]] }
              "po_requested_delivery_date" 0) = Cell.na)) :=
  @process_dates_conf_null_iff_both_unparseable
    { cols := ["conf_dely_date", "po_requested_delivery_date"],
      rows := [[Cell.str "--0", Cell.str "2024-01-05"]] }
    (by decide) 0 1 (by decide) (by decide) 0 (by decide)

/-- Claim C2, counterexample: a `"--0"` sentinel in `conf_dely_date` does
not end as null after the full reconciliation when the row has a parseable
`po_requested_delivery_date`: imputation fills it with that date. -/
theorem sentinel_imputed_not_null :
    process_dates { cols := ["conf_dely_date", "po_requested_delivery_date"],
                    rows := [[Cell.str "--0", Cell.str "2024-01-05"]] } =
      Except.ok { cols := ["conf_dely_date", "po_requested_delivery_date"],
                  rows := [[Cell.date 739195, Cell.date 739195]] } ∧
    cellAt { cols := ["conf_dely_date", "po_requested_delivery_date"],
             rows := [[Cell.str "--0", Cell.str "2024-01-05"]] } "conf_dely_date" 0 =
      Cell.str "--0" ∧
    Cell.date 739195 ≠ Cell.na := by
  refine ⟨rfl, rfl, by decide⟩

/-- Claim C2, amended: the sentinel is replaced by null before the date
parse, so it never contributes a parsed date itself; after imputation a
sentinel cell holds exactly the parsed `po_requested_delivery_date` of its
row (hence null iff that value fails to parse). -/
theorem sentinel_cleared_before_parse_then_imputed {df : DataFrame} (hwf : df.wf)
    {kc kp : Nat} (hc : df.cols.indexOf? "conf_dely_date" = some kc)
    (hp : df.cols.indexOf? "po_requested_delivery_date" = some kp)
    (i : Nat) (hi : i < df.rows.length)
    (hsent : cellAt df "conf_dely_date" i = Cell.str "--0") :
    ∃ out : DataFrame, process_dates df = Except.ok out ∧
      cellAt out "conf_dely_date" i =
        toDatetimeCoerce (cellAt df "po_requested_delivery_date" i) := by
  obtain ⟨out, hok, -, -, hcell⟩ := process_dates_spec hwf hc hp
  refine ⟨out, hok, ?_⟩
  rw [hcell i hi, hsent]
  rfl

/-- Claim C2, witness: the amended statement applied to a concrete
one-row table with a sentinel `conf_dely_date`. -/
theorem sentinel_cleared_before_parse_then_imputed_witness :
    ∃ out : DataFrame,
      process_dates { cols := ["conf_dely_date", "po_requested_delivery_date"],
                      rows := [[Cell.str "--0", Cell.str "2024-01-05"]] } =
        Except.ok out ∧
      cellAt out "conf_dely_date" 0 =
        toDatetimeCoerce
          (cellAt { cols := ["conf_dely_date", "po_requested_delivery_date"],
                    rows := [[Cell.str "--0", Cell.str "2024-01-05"]] }
            "po_requested_delivery_date" 0) :=
  @sentinel_cleared_before_parse_then_imputed
    { cols := ["conf_dely_date", "po_requested_delivery_date"],
      rows := [[Cell.str "--0", Cell.str "2024-01-05"]] }
    (by decide) 0 1 (by decide) (by decide) 0 (by decide) (by decide)

/-- Claim C4, counterexample: with `conf_dely_date` absent from the schema
the date-reconciliation stage does not skip it — it fails with a
`KeyError`, contradicting "skips it and completes without failing". -/
theorem process_dates_missing_conf_raises :
    process_dates { cols := ["order_date"], rows := [[Cell.str "2024-01-02"]] } =
      Except.error "KeyError: conf_dely_date" := rfl

/-- Claim C4, amended: schema-discovered date columns are present by
construction, so the parse loop itself cannot hit a missing column; the
stage succeeds exactly when both hard-coded columns `conf_dely_date` and
`po_requested_delivery_date` exist, and raises (the spec's fatal
`DateProcessingError`) when either is absent. -/
theorem process_dates_ok_iff_required_columns (df : DataFrame) :
    (∃ out, process_dates df = Except.ok out) ↔
      ("conf_dely_date" ∈ df.cols ∧ "po_requested_delivery_date" ∈ df.cols) := by
  constructor
  · rintro ⟨out, h⟩
    rw [process_dates_eq] at h
    cases hk : df.cols.indexOf? "conf_dely_date" with
    | none => rw [mapCol_err hk, exbind_err] at h; cases h
    | some kc =>
      rw [mapCol_ok hk, exbind_ok] at h
      refine ⟨idx_mem hk, ?_⟩
      cases hA : applyColsM toDatetimeCoerce (applyColTotal df "conf_dely_date" replaceSentinel)
          (df.cols.filter (fun c => containsSub c "date")) with
      | error e => rw [hA, exbind_err] at h; cases h
      | ok d2 =>
        rw [hA, exbind_ok] at h
        have hd2cols : d2.cols = df.cols := by
          rw [applyColsM_cols hA, applyColTotal_cols]
        unfold fillnaFrom at h
        cases hkc2 : d2.cols.indexOf? "conf_dely_date" with
        | none =>
          rw [hkc2] at h
          cases h
        | some kc2 =>
          rw [hkc2] at h
          cases hkp2 : d2.cols.indexOf? "po_requested_delivery_date" with
          | none =>
            rw [hkp2] at h
            cases h
          | some kp2 =>
            exact hd2cols ▸ idx_mem hkp2
  · rintro ⟨h1, h2⟩
    obtain ⟨kc, hkc⟩ := mem_idx h1
    obtain ⟨kp, hkp⟩ := mem_idx h2
    have hsub : ∀ c ∈ df.cols.filter (fun c => containsSub c "date"),
        c ∈ (applyColTotal df "conf_dely_date" replaceSentinel).cols := by
      intro c hcm
      rw [applyColTotal_cols]
      exact (List.mem_filter.mp hcm).1
    have hc2 : ((df.cols.filter (fun c => containsSub c "date")).foldl
        (fun a c => applyColTotal a c toDatetimeCoerce)
        (applyColTotal df "conf_dely_date" replaceSentinel)).cols.indexOf?
          "conf_dely_date" = some kc := by
      rw [foldl_applyCols_cols, applyColTotal_cols]; exact hkc
    have hp2 : ((df.cols.filter (fun c => containsSub c "date")).foldl
        (fun a c => applyColTotal a c toDatetimeCoerce)
        (applyColTotal df "conf_dely_date" replaceSentinel)).cols.indexOf?
          "po_requested_delivery_date" = some kp := by
      rw [foldl_applyCols_cols, applyColTotal_cols]; exact hkp
    exact ⟨_, by
      rw [process_dates_eq, mapCol_ok hkc, exbind_ok,
          applyColsM_ok_of_present _ _ hsub, exbind_ok]
      exact fillnaFrom_ok hc2 hp2⟩

/-! ### Text-coercion lemmas -/

theorem idx_none_of_not_mem {l : List String} {c : String} (h : c ∉ l) :
    l.indexOf? c = none := by
  cases hk : l.indexOf? c with
  | none => rfl
  | some k => exact absurd (idx_mem hk) h

theorem applyColTotal_absent {df : DataFrame} {c : String} (h : c ∉ df.cols)
    (f : Cell → Cell) : applyColTotal df c f = df := by
  unfold applyColTotal
  rw [idx_none_of_not_mem h]

theorem ptc_eq_foldl (df : DataFrame) :
    process_text_columns df =
      text_columns.foldl (fun a c => applyColTotal a c astypeString) df := by
  show text_columns.foldl _ df = _
  generalize text_columns = names
  induction names generalizing df with
  | nil => rfl
  | cons c cs ih =>
    rw [List.foldl_cons, List.foldl_cons]
    by_cases h : df.cols.contains c
    · rw [if_pos h]
      exact ih _
    · rw [if_neg h]
      have hnm : c ∉ df.cols := by simpa using h
      rw [applyColTotal_absent hnm]
      exact ih _

theorem process_text_columns_cols (df : DataFrame) :
    (process_text_columns df).cols = df.cols := by
  rw [ptc_eq_foldl, foldl_applyCols_cols]

theorem applyColsM_err_of_missing {f : Cell → Cell} :
    ∀ (names : List String) (df : DataFrame), (∃ c ∈ names, c ∉ df.cols) →
      ∃ e, applyColsM f df names = Except.error e
  | [], _, h => absurd h (by simp)
  | c :: cs, df, h => by
    by_cases hc : c ∈ df.cols
    · obtain ⟨k, hk⟩ := mem_idx hc
      obtain ⟨c', hc', hc'nm⟩ := h
      have hc'cs : c' ∈ cs := by
        cases List.mem_cons.mp hc' with
        | inl heq => exact absurd (heq ▸ hc) hc'nm
        | inr hmem => exact hmem
      have : c' ∉ (applyColTotal df c f).cols := by
        rw [applyColTotal_cols]
        exact hc'nm
      obtain ⟨e, he⟩ := applyColsM_err_of_missing cs (applyColTotal df c f) ⟨c', hc'cs, this⟩
      refine ⟨e, ?_⟩
      rw [applyColsM, mapCol_ok hk]
      exact he
    · refine ⟨"KeyError: " ++ c, ?_⟩
      rw [applyColsM, mapCol_err (idx_none_of_not_mem hc)]
      rfl

/-- Claim C3, counterexample: the mb variant's text coercion fails
(raises `KeyError`) on a table missing one of the listed columns, so the
coercion does not succeed on every input table as claimed. -/
theorem text_columns_mb_missing_raises :
    text_columns_mb { cols := ["supplier"], rows := [[Cell.int 5]] } =
      Except.error "KeyError: supplier_name" := rfl

/-- Claim C3, amended: the tolerant behaviour holds for
`process_text_columns` in purchasing-metrics.py — it never fails, keeps
the schema, coerces every listed column that is present and skips absent
ones — while the mb variant's unguarded loop raises a `KeyError` as soon
as a listed column is absent from the schema. -/
theorem text_coercion_tolerant_metrics_strict_mb (df : DataFrame) (c : String)
    (i : Nat) (hc : c ∈ text_columns) (hi : i < df.rows.length) :
    (process_text_columns df).cols = df.cols ∧
    (c ∈ df.cols → cellAt (process_text_columns df) c i = astypeString (cellAt df c i)) ∧
    (c ∉ df.cols → ∃ e, text_columns_mb df = Except.error e) := by
  refine ⟨process_text_columns_cols df, ?_, ?_⟩
  · intro hmem
    obtain ⟨k, hk⟩ := mem_idx hmem
    rw [ptc_eq_foldl]
    exact cellAt_foldl_mem astypeString_idem astypeString_na hk hc i hi
  · intro hnm
    exact applyColsM_err_of_missing text_columns df ⟨c, hc, hnm⟩

/-- Claim C3, witness: the amended statement applied to a concrete
one-row table whose schema lacks the listed column `buyer`. -/
theorem text_coercion_tolerant_metrics_strict_mb_witness :
    (process_text_columns { cols := ["supplier"], rows := [[Cell.int 7]] }).cols =
      DataFrame.cols { cols := ["supplier"], rows := [[Cell.int 7]] } ∧
    ("buyer" ∈ DataFrame.cols { cols := ["supplier"], rows := [[Cell.int 7]] } →
      cellAt (process_text_columns { cols := ["supplier"], rows := [[Cell.int 7]] })
          "buyer" 0 =
        astypeString (cellAt { cols := ["supplier"], rows := [[Cell.int 7]] } "buyer" 0)) ∧
    ("buyer" ∉ DataFrame.cols { cols := ["supplier"], rows := [[Cell.int 7]] } →
      ∃ e, text_columns_mb { cols := ["supplier"], rows := [[Cell.int 7]] } =
        Except.error e) :=
  text_coercion_tolerant_metrics_strict_mb
    { cols := ["supplier"], rows := [[Cell.int 7]] } "buyer" 0 (by decide) (by decide)

/-! ### Idempotence of the normalizer -/

theorem char_toNat_ofNat_valid {n : Nat} (h : n.isValidChar) :
    (Char.ofNat n).toNat = n := by
  unfold Char.ofNat
  rw [dif_pos h]
  rfl

theorem toLower_toNat_shift {c : Char} (h : 65 ≤ c.toNat ∧ c.toNat ≤ 90) :
    c.toLower.toNat = c.toNat + 32 := by
  unfold Char.toLower
  rw [if_pos (by exact ⟨h.1, h.2⟩)]
  exact char_toNat_ofNat_valid (Or.inl (by omega))

theorem toLower_eq_self {c : Char} (h : ¬(65 ≤ c.toNat ∧ c.toNat ≤ 90)) :
    c.toLower = c := by
  unfold Char.toLower
  rw [if_neg (by exact h)]

theorem toLower_toLower (c : Char) : c.toLower.toLower = c.toLower := by
  by_cases h : 65 ≤ c.toNat ∧ c.toNat ≤ 90
  · have hn := toLower_toNat_shift h
    apply toLower_eq_self
    rw [hn]
    omega
  · rw [toLower_eq_self h, toLower_eq_self h]

theorem toLower_ne_space {c : Char} (h : c ≠ ' ') : c.toLower ≠ ' ' := by
  by_cases hc : 65 ≤ c.toNat ∧ c.toNat ≤ 90
  · intro heq
    have := toLower_toNat_shift hc
    rw [heq] at this
    have h32 : (' ' : Char).toNat = 32 := rfl
    omega
  · rw [toLower_eq_self hc]
    exact h

theorem uChar_ne_space (c : Char) : (if c = ' ' then '_' else c.toLower) ≠ ' ' := by
  by_cases h : c = ' '
  · rw [if_pos h]
    decide
  · rw [if_neg h]
    exact toLower_ne_space h

theorem lowerName_data (s : String) : (lowerName s).data = s.data.map Char.toLower := rfl

theorem underscoreName_data (s : String) :
    (underscoreName s).data = s.data.map (fun c => if c = ' ' then '_' else c) := rfl

theorem normName_fix (s : String) :
    underscoreName (lowerName (underscoreName (lowerName s))) =
      underscoreName (lowerName s) := by
  apply congrArg String.mk
  simp only [underscoreName_data, lowerName_data, List.map_map]
  apply List.map_congr_left
  intro a ha
  simp only [Function.comp_apply]
  by_cases ht : a.toLower = ' '
  · rw [if_pos ht]
    decide
  · rw [if_neg ht, toLower_toLower, if_neg ht]

theorem canonName_idem (s : String) : canonName (canonName s) = canonName s := by
  unfold canonName
  by_cases h : underscoreName (lowerName s) = "orderedquantity"
  · rw [if_pos h]
    decide
  · rw [if_neg h, normName_fix, if_neg h]

theorem foldl_stepRow_idem {f : Cell → Cell} (hf : ∀ x, f (f x) = f x)
    (names cols : List String) (r : List Cell) :
    names.foldl (stepRow cols f) (names.foldl (stepRow cols f) r) =
      names.foldl (stepRow cols f) r := by
  apply List.ext_getElem?
  intro n
  rw [foldl_stepRow_getElem hf names cols _ n, foldl_stepRow_getElem hf names cols r n]
  by_cases h : names.any (fun c' => decide (cols.indexOf? c' = some n)) = true
  · rw [if_pos h, if_pos h]
    cases r[n]? <;> simp [hf]
  · rw [if_neg h, if_neg h]

theorem DataFrame.eq_of {a b : DataFrame} (h1 : a.cols = b.cols)
    (h2 : a.rows = b.rows) : a = b := by
  cases a
  cases b
  cases h1
  cases h2
  rfl

theorem normalize_stage_cols (df : DataFrame) :
    (normalize_stage df).cols = df.cols.map canonName := by
  unfold normalize_stage
  rw [process_text_columns_cols]
  show ((normalizeCols df).cols.map _) = _
  simp only [normalizeCols, List.map_map]
  rfl

theorem normalize_stage_rows (df : DataFrame) :
    (normalize_stage df).rows =
      df.rows.map (fun r =>
        text_columns.foldl (stepRow (df.cols.map canonName) astypeString) r) := by
  unfold normalize_stage
  rw [ptc_eq_foldl, foldl_applyCols_rows]
  have hc : (renameOrdered (normalizeCols df)).cols = df.cols.map canonName := by
    show ((normalizeCols df).cols.map _) = _
    simp only [normalizeCols, List.map_map]
    rfl
  rw [hc]
  rfl

theorem map_canonName_fix (l : List String) :
    (l.map canonName).map canonName = l.map canonName := by
  rw [List.map_map]
  apply List.map_congr_left
  intro a ha
  simp only [Function.comp_apply]
  exact canonName_idem a

/-- Claim C8: the normalizer (column-name canonicalization followed by the
text coercion) is idempotent — applying it to its own output returns that
output unchanged. -/
theorem normalize_stage_idem (df : DataFrame) :
    normalize_stage (normalize_stage df) = normalize_stage df := by
  apply DataFrame.eq_of
  · rw [normalize_stage_cols, normalize_stage_cols, map_canonName_fix]
  · rw [normalize_stage_rows, normalize_stage_rows df, normalize_stage_cols,
        map_canonName_fix, List.map_map]
    apply List.map_congr_left
    intro r hr
    simp only [Function.comp_apply]
    exact foldl_stepRow_idem astypeString_idem text_columns (df.cols.map canonName) r

/-! ### Loader lemmas -/

theorem idx_append_left {l : List String} {c' : String} {k : Nat} (l2 : List String)
    (h : l.indexOf? c' = some k) : (l ++ l2).indexOf? c' = some k := by
  rw [List.indexOf?] at h ⊢
  rw [List.findIdx?_append, h]
  rfl

theorem stepRow_getD_self {cols : List String} {f : Cell → Cell} {r : List Cell}
    {c : String} {k : Nat} (h : cols.indexOf? c = some k) (hk : k < r.length) :
    (stepRow cols f r c).getD k Cell.na = f (r.getD k Cell.na) := by
  rw [List.getD_eq_getElem?_getD, stepRow_getElem, if_pos h, List.getD_eq_getElem?_getD,
      List.getElem?_eq_getElem hk]
  simp

theorem stepRow_getD_other {cols : List String} {f : Cell → Cell} {r : List Cell}
    {c : String} {k' : Nat} (hcond : cols.indexOf? c ≠ some k') :
    (stepRow cols f r c).getD k' Cell.na = r.getD k' Cell.na := by
  rw [List.getD_eq_getElem?_getD, stepRow_getElem, if_neg hcond,
      List.getD_eq_getElem?_getD]

theorem getD_set_other {r : List Cell} {k k' : Nat} (h : k ≠ k') (v : Cell) :
    (r.set k v).getD k' Cell.na = r.getD k' Cell.na := by
  rw [List.getD_eq_getElem?_getD, List.getElem?_set_ne h, List.getD_eq_getElem?_getD]

theorem getD_append_left {r : List Cell} {k' : Nat} (h : k' < r.length) (l2 : List Cell) :
    (r ++ l2).getD k' Cell.na = r.getD k' Cell.na := by
  rw [List.getD_eq_getElem?_getD, List.getElem?_append_left h,
      List.getD_eq_getElem?_getD]

theorem cellAt_applyColTotal_self_wf {f : Cell → Cell} {df : DataFrame} (hwf : df.wf)
    {c : String} {k : Nat} (h : df.cols.indexOf? c = some k) (i : Nat)
    (hi : i < df.rows.length) :
    cellAt (applyColTotal df c f) c i = f (cellAt df c i) := by
  simp only [cellAt, applyColTotal_cols, h, applyColTotal_rows]
  rw [rowAt_map hi]
  have hk : k < (df.rows.getD i []).length := by
    rw [hwf _ (rowAt_mem hi)]
    exact idx_lt_length h
  rw [stepRow_getD_self h hk]

theorem cellAt_applyColTotal_other {f : Cell → Cell} {df : DataFrame} {c c' : String}
    (hne : c' ≠ c) (i : Nat) (hi : i < df.rows.length) :
    cellAt (applyColTotal df c f) c' i = cellAt df c' i := by
  cases h' : df.cols.indexOf? c' with
  | none => simp only [cellAt, applyColTotal_cols, h']
  | some k' =>
    simp only [cellAt, applyColTotal_cols, h', applyColTotal_rows]
    rw [rowAt_map hi]
    apply stepRow_getD_other
    intro hc
    have h1 := idx_name hc
    have h2 := idx_name h'
    rw [h1] at h2
    exact hne (Option.some.inj h2).symm

theorem cellAt_setConst_other {df : DataFrame} (hwf : df.wf) {c c' : String}
    (hne : c' ≠ c) (v : Cell) (i : Nat) (hi : i < df.rows.length) :
    cellAt (setConst df c v) c' i = cellAt df c' i := by
  unfold setConst
  cases h : df.cols.indexOf? c with
  | some k =>
    cases h' : df.cols.indexOf? c' with
    | none => simp only [cellAt, h']
    | some k' =>
      have hkk : k ≠ k' := idx_inj h h' (fun heq => hne heq.symm)
      simp only [cellAt, h']
      rw [rowAt_map hi, getD_set_other hkk]
  | none =>
    cases h' : df.cols.indexOf? c' with
    | none =>
      have hnone : (df.cols ++ [c]).indexOf? c' = none := by
        apply idx_none_of_not_mem
        intro hmem
        cases List.mem_append.mp hmem with
        | inl hl =>
          obtain ⟨k0, hk0⟩ := mem_idx hl
          rw [h'] at hk0
          cases hk0
        | inr hr => exact hne (List.mem_singleton.mp hr)
      simp only [cellAt, hnone, h']
    | some k' =>
      have happ : (df.cols ++ [c]).indexOf? c' = some k' := idx_append_left [c] h'
      simp only [cellAt, happ, h']
      rw [rowAt_map hi]
      have hk' : k' < (df.rows.getD i []).length := by
        rw [hwf _ (rowAt_mem hi)]
        exact idx_lt_length h'
      rw [getD_append_left hk']

theorem mb_read_file_marker {f : RawFile} (hm : containsSub f.name "qry514-fac400" = true) :
    mb_read_file f =
      setConst
        (applyColTotal
          (applyColTotal
            (applyColTotal (applyColTotal f.table "Supplier" dtypeStr)
              "Item Number" dtypeStr)
            "Supplier" (fun c => Cell.str (zfill 5 (pyStr c))))
          "Item Number" (fun c => Cell.str (pyStr c)))
        "Source_File" (Cell.str f.name) := by
  unfold mb_read_file
  rw [hm]
  simp

theorem mb_read_file_plain {f : RawFile} (hm : containsSub f.name "qry514-fac400" = false) :
    mb_read_file f =
      setConst
        (applyColTotal (applyColTotal f.table "Supplier" dtypeStr)
          "Item Number" dtypeStr)
        "Source_File" (Cell.str f.name) := by
  unfold mb_read_file
  rw [hm]
  simp

/-- Claim C5, counterexample: the metrics variant's loader
(`read_excel_file`) applies neither the text typing nor the zero-padding
to a `qry514-fac400` file — a numeric supplier cell stays numeric, not the
padded text `"00123"` the claim requires of "the loader". -/
theorem metrics_loader_no_padding :
    read_excel_file { name := "qry514-fac400.xlsx", mtime := 0,
                      table := { cols := ["Supplier"], rows := [[Cell.int 123]] } } =
      { cols := ["Supplier", "source_file"],
        rows := [[Cell.int 123, Cell.str "qry514-fac400.xlsx"]] } ∧
    cellAt { cols := ["Supplier", "source_file"],
             rows := [[Cell.int 123, Cell.str "qry514-fac400.xlsx"]] } "Supplier" 0 =
      Cell.int 123 ∧
    Cell.int 123 ≠ Cell.str "00123" := by
  refine ⟨rfl, rfl, by decide⟩

/-- Claim C5, amended: the policy as claimed is the mb variant's loader
policy.  There, a file whose name contains the marker has `Supplier` read
as text and left-padded with zeros to a width of (at least) 5 and
`Item Number` read as text; any other file gets the same text typing with
no padding.  The metrics variant's loader applies no per-file typing or
padding at all (see the counterexample). -/
theorem mb_loader_marker_policy (f : RawFile) (hwf : f.table.wf)
    {ks ki : Nat} (hs : f.table.cols.indexOf? "Supplier" = some ks)
    (hitem : f.table.cols.indexOf? "Item Number" = some ki)
    (i : Nat) (hi : i < f.table.rows.length) :
    (containsSub f.name "qry514-fac400" = true →
      cellAt (mb_read_file f) "Supplier" i =
        Cell.str (zfill 5 (pyStr (dtypeStr (cellAt f.table "Supplier" i)))) ∧
      cellAt (mb_read_file f) "Item Number" i =
        Cell.str (pyStr (dtypeStr (cellAt f.table "Item Number" i)))) ∧
    (containsSub f.name "qry514-fac400" = false →
      cellAt (mb_read_file f) "Supplier" i = dtypeStr (cellAt f.table "Supplier" i) ∧
      cellAt (mb_read_file f) "Item Number" i =
        dtypeStr (cellAt f.table "Item Number" i)) := by
  have hne1 : ("Item Number" : String) ≠ "Supplier" := by decide
  have hne1' : ("Supplier" : String) ≠ "Item Number" := by decide
  have hne2 : ("Supplier" : String) ≠ "Source_File" := by decide
  have hne3 : ("Item Number" : String) ≠ "Source_File" := by decide
  have hwf1 : (applyColTotal f.table "Supplier" dtypeStr).wf :=
    wf_applyColTotal hwf _ _
  have hi1 : i < (applyColTotal f.table "Supplier" dtypeStr).rows.length := by
    rw [applyColTotal_rows_length]
    exact hi
  have hs1 : (applyColTotal f.table "Supplier" dtypeStr).cols.indexOf? "Supplier" =
      some ks := by rw [applyColTotal_cols]; exact hs
  have hit1 : (applyColTotal f.table "Supplier" dtypeStr).cols.indexOf? "Item Number" =
      some ki := by rw [applyColTotal_cols]; exact hitem
  have hwf2 : (applyColTotal (applyColTotal f.table "Supplier" dtypeStr)
      "Item Number" dtypeStr).wf := wf_applyColTotal hwf1 _ _
  have hi2 : i < (applyColTotal (applyColTotal f.table "Supplier" dtypeStr)
      "Item Number" dtypeStr).rows.length := by
    rw [applyColTotal_rows_length]
    exact hi1
  have hs2 : (applyColTotal (applyColTotal f.table "Supplier" dtypeStr)
      "Item Number" dtypeStr).cols.indexOf? "Supplier" = some ks := by
    rw [applyColTotal_cols]
    exact hs1
  have hit2 : (applyColTotal (applyColTotal f.table "Supplier" dtypeStr)
      "Item Number" dtypeStr).cols.indexOf? "Item Number" = some ki := by
    rw [applyColTotal_cols]
    exact hit1
  have e2s : cellAt (applyColTotal (applyColTotal f.table "Supplier" dtypeStr)
      "Item Number" dtypeStr) "Supplier" i = dtypeStr (cellAt f.table "Supplier" i) := by
    rw [cellAt_applyColTotal_other hne1' i hi1, cellAt_applyColTotal_self_wf hwf hs i hi]
  have e2i : cellAt (applyColTotal (applyColTotal f.table "Supplier" dtypeStr)
      "Item Number" dtypeStr) "Item Number" i =
      dtypeStr (cellAt f.table "Item Number" i) := by
    rw [cellAt_applyColTotal_self_wf hwf1 hit1 i hi1,
        cellAt_applyColTotal_other hne1 i hi]
  constructor
  · intro hm
    rw [mb_read_file_marker hm]
    have hwf3 : (applyColTotal (applyColTotal (applyColTotal f.table "Supplier" dtypeStr)
        "Item Number" dtypeStr) "Supplier" (fun c => Cell.str (zfill 5 (pyStr c)))).wf :=
      wf_applyColTotal hwf2 _ _
    have hi3 : i < (applyColTotal (applyColTotal (applyColTotal f.table "Supplier"
        dtypeStr) "Item Number" dtypeStr) "Supplier"
        (fun c => Cell.str (zfill 5 (pyStr c)))).rows.length := by
      rw [applyColTotal_rows_length]
      exact hi2
    have hit3 : (applyColTotal (applyColTotal (applyColTotal f.table "Supplier" dtypeStr)
        "Item Number" dtypeStr) "Supplier"
        (fun c => Cell.str (zfill 5 (pyStr c)))).cols.indexOf? "Item Number" =
        some ki := by
      rw [applyColTotal_cols]
      exact hit2
    have hwf4 : (applyColTotal (applyColTotal (applyColTotal (applyColTotal f.table
        "Supplier" dtypeStr) "Item Number" dtypeStr) "Supplier"
        (fun c => Cell.str (zfill 5 (pyStr c)))) "Item Number"
        (fun c => Cell.str (pyStr c))).wf := wf_applyColTotal hwf3 _ _
    have hi4 : i < (applyColTotal (applyColTotal (applyColTotal (applyColTotal f.table
        "Supplier" dtypeStr) "Item Number" dtypeStr) "Supplier"
        (fun c => Cell.str (zfill 5 (pyStr c)))) "Item Number"
        (fun c => Cell.str (pyStr c))).rows.length := by
      rw [applyColTotal_rows_length]
      exact hi3
    constructor
    · rw [cellAt_setConst_other hwf4 hne2 _ i hi4,
          cellAt_applyColTotal_other hne1' i hi3,
          cellAt_applyColTotal_self_wf hwf2 hs2 i hi2, e2s]
    · rw [cellAt_setConst_other hwf4 hne3 _ i hi4,
          cellAt_applyColTotal_self_wf hwf3 hit3 i hi3,
          cellAt_applyColTotal_other hne1 i hi2, e2i]
  · intro hm
    rw [mb_read_file_plain hm]
    constructor
    · rw [cellAt_setConst_other hwf2 hne2 _ i hi2, e2s]
    · rw [cellAt_setConst_other hwf2 hne3 _ i hi2, e2i]

/-- Claim C5, witness: the amended statement applied to a concrete marker
file with a numeric supplier cell. -/
theorem mb_loader_marker_policy_witness :
    (containsSub "qry514-fac400 jan.xlsx" "qry514-fac400" = true →
      cellAt (mb_read_file { name := "qry514-fac400 jan.xlsx", mtime := 0, table := { cols := ["Supplier", "Item Number"], rows := [[Cell.int 123, Cell.int 77]] } }) "Supplier" 0 =
        Cell.str (zfill 5 (pyStr (dtypeStr (cellAt { cols := ["Supplier", "Item Number"], rows := [[Cell.int 123, Cell.int 77]] } "Supplier" 0)))) ∧
      cellAt (mb_read_file { name := "qry514-fac400 jan.xlsx", mtime := 0, table := { cols := ["Supplier", "Item Number"], rows := [[Cell.int 123, Cell.int 77]] } }) "Item Number" 0 =
        Cell.str (pyStr (dtypeStr (cellAt { cols := ["Supplier", "Item Number"], rows := [[Cell.int 123, Cell.int 77]] } "Item Number" 0)))) ∧
    (containsSub "qry514-fac400 jan.xlsx" "qry514-fac400" = false →
      cellAt (mb_read_file { name := "qry514-fac400 jan.xlsx", mtime := 0, table := { cols := ["Supplier", "Item Number"], rows := [[Cell.int 123, Cell.int 77]] } }) "Supplier" 0 = dtypeStr (cellAt { cols := ["Supplier", "Item Number"], rows := [[Cell.int 123, Cell.int 77]] } "Supplier" 0) ∧
      cellAt (mb_read_file { name := "qry514-fac400 jan.xlsx", mtime := 0, table := { cols := ["Supplier", "Item Number"], rows := [[Cell.int 123, Cell.int 77]] } }) "Item Number" 0 = dtypeStr (cellAt { cols := ["Supplier", "Item Number"], rows := [[Cell.int 123, Cell.int 77]] } "Item Number" 0)) :=
  @mb_loader_marker_policy { name := "qry514-fac400 jan.xlsx", mtime := 0, table := { cols := ["Supplier", "Item Number"], rows := [[Cell.int 123, Cell.int 77]] } }
    (by decide) 0 1 (by decide) (by decide) 0 (by decide)

/-- Claim C6: with zero readable input files the metrics variant raises
`No valid Excel files found` and the mb variant raises pandas'
`No objects to concatenate`; both runs fail before any export event is
produced. -/
theorem no_input_fails_before_export :
    combine_excel_files [] = Except.error "No valid Excel files found" ∧
    mb_run [] = Except.error "No objects to concatenate" := ⟨rfl, rfl⟩

/-- Claim C9: `get_past_due_orders` never reads its dataframe argument —
it re-reads the latest source file — so its output is identical for any
two dataframe arguments given the same files and date. -/
theorem past_due_ignores_dataframe (df1 df2 : DataFrame) (files : List RawFile)
    (today : Nat) :
    get_past_due_orders df1 files today = get_past_due_orders df2 files today := rfl

/-! ### Past-due filter lemmas -/

theorem colIdx_ok {df : DataFrame} {c : String} {k : Nat}
    (h : colIdx df c = Except.ok k) : df.cols.indexOf? c = some k := by
  unfold colIdx at h
  cases hk : df.cols.indexOf? c with
  | none => rw [hk] at h; cases h
  | some k' =>
    rw [hk] at h
    cases h
    rfl

theorem mem_insertRowDesc {kd : Nat} {r x : List Cell} :
    ∀ {l : List (List Cell)}, x ∈ insertRowDesc kd r l ↔ x = r ∨ x ∈ l := by
  intro l
  induction l with
  | nil => simp [insertRowDesc]
  | cons y ys ih =>
    unfold insertRowDesc
    by_cases h : daysKey kd y ≤ daysKey kd r
    · rw [if_pos h]
      simp
    · rw [if_neg h]
      simp only [List.mem_cons, ih]
      tauto

theorem mem_sortRowsDesc {kd : Nat} {x : List Cell} :
    ∀ {l : List (List Cell)}, x ∈ sortRowsDesc kd l ↔ x ∈ l := by
  intro l
  induction l with
  | nil => simp [sortRowsDesc]
  | cons y ys ih =>
    unfold sortRowsDesc
    rw [mem_insertRowDesc]
    simp only [List.mem_cons, ih]

theorem get_past_due_orders_eq (df : DataFrame) (files : List RawFile) (today : Nat) :
    get_past_due_orders df files today =
      latestFile files >>= fun latest =>
        mapColM (setConst { latest.table with
            cols := latest.table.cols.map (fun c => underscoreName (lowerName c)) }
          "source_file" (Cell.str latest.name)) "planning_date" toDatetimeStrict >>=
          fun ldf =>
        colIdx ldf "planning_date" >>= fun kp =>
        colIdx ldf "po_line_low_sts" >>= fun ks =>
        projectCols { ldf with rows := ldf.rows.filter (pastDuePred today kp ks) }
          pastDueCols >>= fun pd =>
        colIdx pd "planning_date" >>= fun kq =>
        colIdx { cols := pd.cols ++ ["days_past_due"],
                 rows := pd.rows.map (fun r =>
                   r ++ [daysPastDueCell today (r.getD kq Cell.na)]) }
          "days_past_due" >>= fun kd =>
        Except.ok ({ cols := pd.cols ++ ["days_past_due"],
                     rows := sortRowsDesc kd (pd.rows.map (fun r =>
                       r ++ [daysPastDueCell today (r.getD kq Cell.na)])) },
          [ExportEvent.csv "past_due_orders"]) := rfl

theorem colIdxs_ok_cons {df : DataFrame} {c : String} {cs : List String} {l : List Nat}
    (h : colIdxs df (c :: cs) = Except.ok l) :
    ∃ k l', df.cols.indexOf? c = some k ∧ colIdxs df cs = Except.ok l' ∧ l = k :: l' := by
  unfold colIdxs at h
  cases hk : colIdx df c with
  | error e => rw [hk, exbind_err] at h; cases h
  | ok k =>
    rw [hk, exbind_ok] at h
    cases hcs : colIdxs df cs with
    | error e =>
      rw [hcs, exbind_err] at h
      cases h
    | ok l' =>
      rw [hcs, exbind_ok] at h
      cases h
      exact ⟨k, l', colIdx_ok hk, rfl, rfl⟩

theorem cellBeforeToday_true {c : Cell} {today : Nat}
    (h : cellBeforeToday c today = true) : ∃ d, c = Cell.date d ∧ d < today := by
  cases c with
  | date d =>
    refine ⟨d, rfl, ?_⟩
    simpa [cellBeforeToday] using h
  | na => simp [cellBeforeToday] at h
  | str s => simp [cellBeforeToday] at h
  | int n => simp [cellBeforeToday] at h

theorem colIdx_planning (rows : List (List Cell)) :
    colIdx { cols := pastDueCols, rows := rows } "planning_date" = Except.ok 1 := rfl

theorem colIdx_days (rows : List (List Cell)) :
    colIdx { cols := pastDueCols ++ ["days_past_due"], rows := rows }
      "days_past_due" = Except.ok 6 := rfl

/-- Every row the past-due filter emits comes from a source row that
passed the predicate: its `planning_date` is a parsed date strictly
before today and its `po_line_low_sts` is in the monitored set. -/
theorem past_due_rows_spec {df : DataFrame} {files : List RawFile} {today : Nat}
    {res : DataFrame} {evs : List ExportEvent}
    (h : get_past_due_orders df files today = Except.ok (res, evs)) :
    res.cols = pastDueCols ++ ["days_past_due"] ∧
    ∀ row ∈ res.rows,
      (∃ d, colValue res "planning_date" row = Cell.date d ∧ d < today) ∧
      cellIsIn (colValue res "po_line_low_sts" row) statusSet = true := by
  rw [get_past_due_orders_eq] at h
  cases hlat : latestFile files with
  | error e => rw [hlat, exbind_err] at h; cases h
  | ok latest =>
    rw [hlat, exbind_ok] at h
    cases hm : mapColM (setConst { latest.table with
        cols := latest.table.cols.map (fun c => underscoreName (lowerName c)) }
        "source_file" (Cell.str latest.name)) "planning_date" toDatetimeStrict with
    | error e => rw [hm, exbind_err] at h; cases h
    | ok ldf =>
      rw [hm, exbind_ok] at h
      cases hkp : colIdx ldf "planning_date" with
      | error e => rw [hkp, exbind_err] at h; cases h
      | ok kp =>
        rw [hkp, exbind_ok] at h
        cases hks : colIdx ldf "po_line_low_sts" with
        | error e => rw [hks, exbind_err] at h; cases h
        | ok ks =>
          rw [hks, exbind_ok] at h
          cases hproj : projectCols
              { ldf with rows := ldf.rows.filter (pastDuePred today kp ks) }
              pastDueCols with
          | error e => rw [hproj, exbind_err] at h; cases h
          | ok pd =>
            rw [hproj, exbind_ok] at h
            unfold projectCols at hproj
            cases hidxs : colIdxs
                { ldf with rows := ldf.rows.filter (pastDuePred today kp ks) }
                pastDueCols with
            | error e => rw [hidxs, exbind_err] at hproj; cases hproj
            | ok idxs =>
              rw [hidxs, exbind_ok] at hproj
              cases hproj
              rw [colIdx_planning, exbind_ok, colIdx_days, exbind_ok] at h
              cases h
              refine ⟨rfl, ?_⟩
              intro row hrow
              rw [mem_sortRowsDesc] at hrow
              obtain ⟨p, hp, hrow_eq⟩ := List.mem_map.mp hrow
              obtain ⟨r, hr, hp_eq⟩ := List.mem_map.mp hp
              obtain ⟨hrmem, hpred⟩ := List.mem_filter.mp hr
              obtain ⟨k0, l1, hc0, hidxs1, rfl⟩ := colIdxs_ok_cons hidxs
              obtain ⟨k1, l2, hc1, hidxs2, rfl⟩ := colIdxs_ok_cons hidxs1
              obtain ⟨k2, l3, hc2, hidxs3, rfl⟩ := colIdxs_ok_cons hidxs2
              obtain ⟨k3, l4, hc3, hidxs4, rfl⟩ := colIdxs_ok_cons hidxs3
              obtain ⟨k4, l5, hc4, hidxs5, rfl⟩ := colIdxs_ok_cons hidxs4
              obtain ⟨k5, l6, hc5, hidxs6, rfl⟩ := colIdxs_ok_cons hidxs5
              have hl6 : l6 = [] := by
                unfold colIdxs at hidxs6
                cases hidxs6
                rfl
              subst hl6
              have hk1 : kp = k1 :=
                Option.some.inj ((colIdx_ok hkp).symm.trans hc1)
              have hk2 : ks = k2 :=
                Option.some.inj ((colIdx_ok hks).symm.trans hc2)
              subst hk1
              subst hk2
              obtain ⟨hlt, hsts⟩ := Bool.and_eq_true_iff.mp hpred
              obtain ⟨d, hd, hdlt⟩ := cellBeforeToday_true hlt
              constructor
              · refine ⟨d, ?_, hdlt⟩
                rw [← hrow_eq, ← hp_eq]
                exact hd
              · rw [← hrow_eq, ← hp_eq]
                exact hsts


/-- Claim C7: every row of the past-due report satisfies both filter
conditions — its `planning_date` is a parsed date strictly before today
(date-only, today normalized to midnight) and its `po_line_low_sts` is one
of 20, 35, 40, 50. -/
theorem past_due_filter_sound (df : DataFrame) (files : List RawFile) (today : Nat)
    (res : DataFrame) (evs : List ExportEvent)
    (h : get_past_due_orders df files today = Except.ok (res, evs))
    (row : List Cell) (hrow : row ∈ res.rows) :
    (∃ d, colValue res "planning_date" row = Cell.date d ∧ d < today) ∧
    cellIsIn (colValue res "po_line_low_sts" row) statusSet = true :=
  (past_due_rows_spec h).2 row hrow

/-- Claim C7, witness: a concrete run with one qualifying source row. -/
theorem past_due_filter_sound_witness :
    (∃ d, colValue { cols := ["po_number", "planning_date", "po_line_low_sts", "buyer", "item_number", "source_file", "days_past_due"], rows := [[Cell.str "PO1", Cell.date 739195, Cell.int 35, Cell.str "B1", Cell.str "IT1", Cell.str "a.xlsx", Cell.int 10]] } "planning_date" [Cell.str "PO1", Cell.date 739195, Cell.int 35, Cell.str "B1", Cell.str "IT1", Cell.str "a.xlsx", Cell.int 10] = Cell.date d ∧ d < 739205) ∧
    cellIsIn (colValue { cols := ["po_number", "planning_date", "po_line_low_sts", "buyer", "item_number", "source_file", "days_past_due"], rows := [[Cell.str "PO1", Cell.date 739195, Cell.int 35, Cell.str "B1", Cell.str "IT1", Cell.str "a.xlsx", Cell.int 10]] } "po_line_low_sts" [Cell.str "PO1", Cell.date 739195, Cell.int 35, Cell.str "B1", Cell.str "IT1", Cell.str "a.xlsx", Cell.int 10]) statusSet = true :=
  past_due_filter_sound { cols := [], rows := [] } [{ name := "a.xlsx", mtime := 5, table := { cols := ["PO Number", "Planning Date", "PO Line Low Sts", "Buyer", "Item Number"], rows := [[Cell.str "PO1", Cell.str "2024-01-05", Cell.int 35, Cell.str "B1", Cell.str "IT1"]] } }] 739205
    { cols := ["po_number", "planning_date", "po_line_low_sts", "buyer", "item_number", "source_file", "days_past_due"], rows := [[Cell.str "PO1", Cell.date 739195, Cell.int 35, Cell.str "B1", Cell.str "IT1", Cell.str "a.xlsx", Cell.int 10]] } [ExportEvent.csv "past_due_orders"] rfl
    [Cell.str "PO1", Cell.date 739195, Cell.int 35, Cell.str "B1", Cell.str "IT1", Cell.str "a.xlsx", Cell.int 10] (by decide)

/-- Claim C10: every row of the past-due output carries a non-null
`planning_date`; a source row whose `planning_date` is missing after
parsing fails the filter predicate outright (the missing-value comparison
with today is false), so it is silently dropped rather than propagated or
turned into an error. -/
theorem past_due_missing_planning_excluded (df : DataFrame) (files : List RawFile)
    (today : Nat) (res : DataFrame) (evs : List ExportEvent)
    (h : get_past_due_orders df files today = Except.ok (res, evs))
    (row : List Cell) (hrow : row ∈ res.rows) :
    colValue res "planning_date" row ≠ Cell.na ∧
    (∀ kp ks : Nat, ∀ r : List Cell, r.getD kp Cell.na = Cell.na →
      pastDuePred today kp ks r = false) := by
  constructor
  · obtain ⟨d, hd, -⟩ := ((past_due_rows_spec h).2 row hrow).1
    rw [hd]
    exact fun heq => Cell.noConfusion heq
  · intro kp ks r hna
    unfold pastDuePred
    rw [hna]
    rfl

/-- Claim C10, witness: a concrete run whose source has one qualifying
row and one row with a missing planning date; only the former appears. -/
theorem past_due_missing_planning_excluded_witness :
    colValue { cols := ["po_number", "planning_date", "po_line_low_sts", "buyer", "item_number", "source_file", "days_past_due"], rows := [[Cell.str "PO1", Cell.date 739195, Cell.int 35, Cell.str "B1", Cell.str "IT1", Cell.str "b.xlsx", Cell.int 10]] } "planning_date" [Cell.str "PO1", Cell.date 739195, Cell.int 35, Cell.str "B1", Cell.str "IT1", Cell.str "b.xlsx", Cell.int 10] ≠ Cell.na ∧
    (∀ kp ks : Nat, ∀ r : List Cell, r.getD kp Cell.na = Cell.na →
      pastDuePred 739205 kp ks r = false) :=
  past_due_missing_planning_excluded { cols := [], rows := [] } [{ name := "b.xlsx", mtime := 5, table := { cols := ["PO Number", "Planning Date", "PO Line Low Sts", "Buyer", "Item Number"], rows := [[Cell.str "PO1", Cell.str "2024-01-05", Cell.int 35, Cell.str "B1", Cell.str "IT1"], [Cell.str "PO2", Cell.na, Cell.int 35, Cell.str "B2", Cell.str "IT2"]] } }] 739205
    { cols := ["po_number", "planning_date", "po_line_low_sts", "buyer", "item_number", "source_file", "days_past_due"], rows := [[Cell.str "PO1", Cell.date 739195, Cell.int 35, Cell.str "B1", Cell.str "IT1", Cell.str "b.xlsx", Cell.int 10]] } [ExportEvent.csv "past_due_orders"] rfl
    [Cell.str "PO1", Cell.date 739195, Cell.int 35, Cell.str "B1", Cell.str "IT1", Cell.str "b.xlsx", Cell.int 10] (by decide)
